import Mathlib

/-!
Shallow embedding of `developer/develop.py` (the `Developer` class) and the
parts of its collaborators that the verified properties need.

Modelling conventions:
* pandas DataFrames are lists of rows; a row is a structure of named fields.
* Python floats are modelled as `ℚ` (exact arithmetic; the spec's "floating
  tolerance" caveats become exact equalities).
* The wide feasibility frame (hierarchical columns, outer level = form) is a
  list of per-parcel rows carrying a total map from form name to the per-form
  attribute block, together with `formOrder`, the stored order of the form
  level of the column `MultiIndex` (`columns.levels[0]`), i.e. the
  construction order of the frame (`pd.concat(..., keys=...)` keeps the keys
  in the given order, and column selection with a list of top-level labels is
  a positional `take` that leaves the `levels` attribute untouched).
* `stack(level=0)` / `unstack(level=1)` in `Developer._max_form` order the
  form axis by that `levels` attribute (`_stack_multi_columns` emits the used
  level values in `levels` order, and `_Unstacker` builds its columns from the
  removed level in stored order), so `idxmax(axis=1)` breaks ties in favour of
  the first form in `formOrder` that is also among the allowed forms.
* Mutation of `self.feasibility` / `self.ave_unit_size` is modelled by state
  passing: `pick` returns the new attribute values next to its result.
* `print` warnings are modelled as a boolean flag in the result.
* Python exceptions cannot arise on the modelled paths (the embedding is a
  total function); fallible lookups in external series are modelled as total
  functions, matching the source's assumption that the series cover every
  parcel.
* The injected random sampling primitives (`developer.proposal_select`, not
  part of these sources) are parameters of `pick`; where a claim needs their
  actual behaviour they are modelled from the spec (see
  `weighted_random_choice_multiparcel`).
* `numpy`/pandas `.round()` rounds half to even; `np.ceil` is `⌈·⌉`.
-/

/-- Per-form attribute block of one parcel row of the wide feasibility frame
(the inner column level of the hierarchical columns). -/
structure FormCols where
  max_profit : ℚ
  max_profit_far : ℚ
  residential_sqft : ℚ
  non_residential_sqft : ℚ
  stories : ℚ

/-- One row of the wide feasibility frame: a parcel together with its
attribute block for every form (total map, mirroring a dense frame). -/
structure WideRow where
  parcel_id : Nat
  attrs : String → FormCols

/-- Wide feasibility frame. `formOrder` is the stored order of the form level
of the hierarchical columns (`columns.levels[0]`). -/
structure WideFrame where
  formOrder : List String
  rows : List WideRow

/-- The `forms` constructor argument: `None`, a single form name, or a list of
competing form names. -/
inductive FormsSpec where
  | noForm : FormsSpec
  | single (s : String) : FormsSpec
  | formList (l : List String) : FormsSpec
deriving DecidableEq

/-- One row of the long (per-proposal) building table: the columns used by
`pick` and its helpers.  Derived columns start at neutral values and are
filled in by the pipeline, mirroring column assignment in pandas. -/
structure BRow where
  parcel_id : Nat
  form : Option String := none
  max_profit : ℚ
  max_profit_far : ℚ
  residential_sqft : ℚ
  non_residential_sqft : ℚ
  stories : ℚ
  ave_unit_size : ℚ := 0
  parcel_size : ℚ := 0
  current_units : ℚ := 0
  residential_units : ℚ := 0
  job_spaces : ℚ := 0
  net_units : ℚ := 0
  max_profit_per_size : ℚ := 0
  year_built : Option Int := none
deriving DecidableEq, Inhabited

/-- The scalar constructor arguments of `Developer` (everything except the
feasibility table).  `target_units` is the scalar-target case; the external
series are total maps from parcel id. -/
structure Params where
  forms : FormsSpec
  target_units : ℚ
  parcel_size : Nat → ℚ
  ave_unit_size : Nat → ℚ
  current_units : Nat → ℚ
  year : Option Int := none
  bldg_sqft_per_job : ℚ := 400
  min_unit_size : ℚ := 400
  max_parcel_size : ℚ := 200000
  drop_after_build : Bool := true
  residential : Bool := true

/-- A `Developer` instance in wide mode (`keep_suboptimal=False`):
`feasibility` is the hierarchical-column frame. -/
structure DevW where
  feasibility : WideFrame
  ps : Params

/-- A `Developer` instance in long mode (`keep_suboptimal=True`):
`feasibility` has one row per proposal, indexed by parcel id with possible
duplicates. -/
structure DevL where
  feasibility : List BRow
  ps : Params

/-- Round half to even on `ℚ`, the rounding of pandas `Series.round()` /
`np.round`. -/
def roundHalfEven (q : ℚ) : ℤ :=
  let f : ℤ := ⌊q⌋
  let frac : ℚ := q - (f : ℚ)
  if frac < 1/2 then f
  else if 1/2 < frac then f + 1
  else if f % 2 = 0 then f else f + 1

/-- The building row produced for parcel `r` when form `f` wins the
profit competition: the chosen form's attribute block, with the form label
moved into the `form` column (`reset_index(level=1)` in
`keep_form_with_max_profit`). -/
def reducedRow (r : WideRow) (f : String) : BRow :=
  { parcel_id := r.parcel_id
    form := some f
    max_profit := (r.attrs f).max_profit
    max_profit_far := (r.attrs f).max_profit_far
    residential_sqft := (r.attrs f).residential_sqft
    non_residential_sqft := (r.attrs f).non_residential_sqft
    stories := (r.attrs f).stories }

/-- The building row produced by single-form column selection
(`self.feasibility[self.forms]`): no `form` column is present. -/
def singleFormRow (r : WideRow) (s : String) : BRow :=
  { parcel_id := r.parcel_id
    form := none
    max_profit := (r.attrs s).max_profit
    max_profit_far := (r.attrs s).max_profit_far
    residential_sqft := (r.attrs s).residential_sqft
    non_residential_sqft := (r.attrs s).non_residential_sqft
    stories := (r.attrs s).stories }

/-- The form axis seen by `_max_form` after `f = f[forms]`: the stored level
order restricted to the allowed forms (`None` allows every form). -/
def allowedForms (F : WideFrame) : Option (List String) → List String
  | Option.none => F.formOrder
  | Option.some l => F.formOrder.filter (fun f => f ∈ l)

/-- `idxmax(axis=1)` of `_max_form` over the stacked/unstacked frame: the
first form on the form axis whose `max_profit` attains the maximum. -/
def idxmaxForm (r : WideRow) (fs : List String) : Option String :=
  fs.find? (fun f => decide (∀ g ∈ fs, (r.attrs g).max_profit ≤ (r.attrs f).max_profit))

/-- `Developer.keep_form_with_max_profit`: keep, for every parcel, the row of
the form with the greatest `max_profit` among the allowed forms, the form
label becoming a column. -/
def keep_form_with_max_profit (F : WideFrame) (forms : Option (List String)) : List BRow :=
  let fs := allowedForms F forms
  F.rows.filterMap (fun r => (idxmaxForm r fs).map (reducedRow r))

/-- `Developer._get_dataframe_of_buildings` (wide mode). -/
def get_dataframe_of_buildings (d : DevW) : List BRow :=
  match d.ps.forms with
  | FormsSpec.noForm => keep_form_with_max_profit d.feasibility Option.none
  | FormsSpec.formList l => keep_form_with_max_profit d.feasibility (Option.some l)
  | FormsSpec.single s => d.feasibility.rows.map (fun r => singleFormRow r s)

/-- The in-place clamp of `self.ave_unit_size`
(`self.ave_unit_size[self.ave_unit_size < self.min_unit_size] =
self.min_unit_size`). -/
def clampedAveUnitSize (ps : Params) : Nat → ℚ :=
  fun i => if ps.ave_unit_size i < ps.min_unit_size then ps.min_unit_size
           else ps.ave_unit_size i

/-- `Developer._remove_infeasible_buildings`: filter on `max_profit_far`,
clamp the shared `ave_unit_size` series in place, attach the external series
as columns, filter on `parcel_size`, and compute the unit columns.  Returns
the new frame together with the (possibly clamped) `ave_unit_size` series. -/
def remove_infeasible_buildings (ps : Params) (df : List BRow) :
    List BRow × (Nat → ℚ) :=
  if df.isEmpty then (df, ps.ave_unit_size)
  else
    let df1 := df.filter (fun r => 0 < r.max_profit_far)
    let aus := clampedAveUnitSize ps
    let df2 := df1.map (fun r =>
      { r with ave_unit_size := aus r.parcel_id
               parcel_size := ps.parcel_size r.parcel_id
               current_units := ps.current_units r.parcel_id })
    let df3 := df2.filter (fun r => r.parcel_size < ps.max_parcel_size)
    let df4 := df3.map (fun r =>
      { r with residential_units :=
                 ((roundHalfEven (r.residential_sqft / r.ave_unit_size) : ℤ) : ℚ)
               job_spaces :=
                 ((roundHalfEven (r.non_residential_sqft / ps.bldg_sqft_per_job) : ℤ) : ℚ) })
    (df4, aus)

/-- `Developer._calculate_net_units`: compute `net_units` from the mode flag
and keep the strictly positive rows. -/
def calculate_net_units (ps : Params) (df : List BRow) : List BRow :=
  if df.isEmpty then df
  else
    let df1 := df.map (fun r =>
      { r with net_units := if ps.residential then r.residential_units - r.current_units
                            else r.job_spaces - r.current_units })
    df1.filter (fun r => 0 < r.net_units)

/-- `Developer._calculate_probabilities`: either apply the user-supplied
probability function, or assign each row the share of its profit density
`max_profit / parcel_size` in the pool total. -/
def calculate_probabilities (df : List BRow)
    (profit_to_prob_func : Option (List BRow → List ℚ)) : List ℚ × List BRow :=
  match profit_to_prob_func with
  | Option.some f => (f df, df)
  | Option.none =>
    let df1 := df.map (fun r =>
      { r with max_profit_per_size := r.max_profit / r.parcel_size })
    let s := (df1.map (fun r => r.max_profit_per_size)).sum
    (df1.map (fun r => r.max_profit_per_size / s), df1)

/-- `Developer._select_buildings` with a scalar target.  The sampling
primitives from `developer.proposal_select` are parameters (`wrc` for
`weighted_random_choice`, `wrcMulti` for
`weighted_random_choice_multiparcel`); `df.index.values` in wide mode is the
list of parcel ids. -/
def select_buildings (ps : Params) (keep_suboptimal : Bool)
    (wrc : List BRow → List ℚ → ℚ → List Nat)
    (wrcMulti : List BRow → List ℚ → ℚ → List Nat)
    (custom_selection_func : Option (List BRow → List ℚ → ℚ → List Nat))
    (df : List BRow) (p : List ℚ) : List Nat :=
  let insufficient := (df.map (fun r => r.net_units)).sum < ps.target_units
  match custom_selection_func with
  | Option.some f => f df p ps.target_units
  | Option.none =>
    if ps.target_units ≤ 0 then []
    else if keep_suboptimal then wrcMulti df p ps.target_units
    else if insufficient then df.map (fun r => r.parcel_id)
    else wrc df p ps.target_units

/-- `Developer._drop_built_buildings` (wide mode): drop the selected parcel
labels from the feasibility frame when `drop_after_build` is set. -/
def drop_built_buildings (ps : Params) (F : WideFrame) (build_idx : List Nat) :
    WideFrame :=
  if ps.drop_after_build then
    { F with rows := F.rows.filter (fun r => r.parcel_id ∉ build_idx) }
  else F

/-- pandas `df.loc[labels]` against a parcel-id index: for each label, in
order, every row carrying that label. -/
def locByParcel (df : List BRow) (labels : List Nat) : List BRow :=
  labels.flatMap (fun l => df.filter (fun r => r.parcel_id = l))

/-- pandas `df.loc[labels]` against the positional index produced by
`reset_index` in long mode. -/
def locByPos (df : List BRow) (labels : List Nat) : List BRow :=
  labels.filterMap (fun l => df[l]?)

/-- Column assignments of `Developer._prepare_new_buildings` on one selected
row: `year_built` (when a year is configured), `form` (whenever `forms` is
not a list), and `stories` rounded up with `np.ceil`. -/
def postProcess (ps : Params) (r : BRow) : BRow :=
  let r1 := match ps.year with
            | Option.some y => { r with year_built := some y }
            | Option.none => r
  let r2 := match ps.forms with
            | FormsSpec.formList _ => r1
            | FormsSpec.single s => { r1 with form := some s }
            | FormsSpec.noForm => { r1 with form := none }
  { r2 with stories := ((⌈r2.stories⌉ : ℤ) : ℚ) }

/-- `Developer._prepare_new_buildings` in wide mode (`build_idx` holds parcel
labels; `parcel_id` moves from the index to a column, which the `parcel_id`
field of the row represents throughout). -/
def prepare_new_buildings_wide (ps : Params) (df : List BRow)
    (build_idx : List Nat) : List BRow :=
  (locByParcel df build_idx).map (postProcess ps)

/-- `Developer._prepare_new_buildings` in long mode (`build_idx` holds
positions of the reset index; `parcel_id` is already a column). -/
def prepare_new_buildings_long (ps : Params) (df : List BRow)
    (build_idx : List Nat) : List BRow :=
  (locByPos df build_idx).map (postProcess ps)

/-- Result of `Developer.pick` in wide mode: the optional frame of new
buildings (`None` = nothing feasible), the developer state after the call
(mutated `feasibility` and `ave_unit_size`), and whether the
no-feasible-buildings warning was printed. -/
structure PickOutW where
  result : Option (List BRow)
  dev : DevW
  emptyWarning : Bool

/-- Result of `Developer.pick` in long mode. -/
structure PickOutL where
  result : Option (List BRow)
  dev : DevL
  emptyWarning : Bool

/-- The candidate pool of `pick` in wide mode: the building frame after form
reduction, infeasibility filtering and net-unit filtering. -/
def candidate_pool_wide (d : DevW) : List BRow :=
  calculate_net_units d.ps (remove_infeasible_buildings d.ps (get_dataframe_of_buildings d)).1

/-- The candidate pool of `pick` in long mode. -/
def candidate_pool_long (d : DevL) : List BRow :=
  calculate_net_units d.ps (remove_infeasible_buildings d.ps d.feasibility).1

/-- The frame handed to the selection step (after `_calculate_probabilities`,
which adds the `max_profit_per_size` column on the default path), wide
mode. -/
def final_candidates_wide (d : DevW)
    (profit_to_prob_func : Option (List BRow → List ℚ)) : List BRow :=
  (calculate_probabilities (candidate_pool_wide d) profit_to_prob_func).2

/-- The frame handed to the selection step, long mode. -/
def final_candidates_long (d : DevL)
    (profit_to_prob_func : Option (List BRow → List ℚ)) : List BRow :=
  (calculate_probabilities (candidate_pool_long d) profit_to_prob_func).2

/-- Modelled from the spec: the draw loop of the capacity-constrained sampler
of `developer/proposal_select.py` (not among these sources).  One proposal is
drawn per step (position chosen by the randomness oracle `g` within the
remaining pool), every other proposal of the drawn parcel is removed, and the
loop stops when the running net-unit total reaches the target; the fuel bound
equals the pool size, which the loop can never exceed. -/
def multiparcelDraw (g : Nat → Nat) :
    Nat → List (Nat × BRow) → ℚ → List Nat → List Nat
  | 0, _, _, acc => acc.reverse
  | fuel + 1, pool, need, acc =>
    if need ≤ 0 then acc.reverse
    else if pool.isEmpty then acc.reverse
    else
      match pool[g fuel % pool.length]? with
      | Option.none => acc.reverse
      | Option.some (i, r) =>
        multiparcelDraw g fuel
          (pool.filter (fun x => ¬ x.2.parcel_id = r.parcel_id))
          (need - r.net_units) (i :: acc)

/-- Modelled from the spec: `proposal_select.weighted_random_choice_multiparcel`
from `developer/proposal_select.py`, which is not among these sources.  Per
the spec's selection algorithm, when the candidate supply is insufficient
(total `net_units` below the target) the entire candidate pool is selected —
the documented over-build fallback — and otherwise proposals are drawn one at
a time without replacement, each draw removing every other proposal of the
same parcel, until the running total reaches the target.  The injected
randomness is the oracle `g`, which picks the position of each draw in the
remaining pool; the weight vector `p` shapes only the distribution of the
draws, not the set of selectable proposals. -/
def weighted_random_choice_multiparcel (g : Nat → Nat)
    (df : List BRow) (p : List ℚ) (target : ℚ) : List Nat :=
  if (df.map (fun r => r.net_units)).sum < target then List.range df.length
  else multiparcelDraw g df.length df.enum target []

/-- `Developer.pick` in wide mode (`keep_suboptimal=False`). -/
def pick_wide (d : DevW)
    (profit_to_prob_func : Option (List BRow → List ℚ))
    (custom_selection_func : Option (List BRow → List ℚ → ℚ → List Nat))
    (wrc : List BRow → List ℚ → ℚ → List Nat) : PickOutW :=
  if d.feasibility.rows.isEmpty then
    { result := none, dev := d, emptyWarning := true }
  else
    let step := remove_infeasible_buildings d.ps (get_dataframe_of_buildings d)
    let aus := step.2
    let df := calculate_net_units d.ps step.1
    if df.isEmpty then
      { result := none
        dev := { d with ps := { d.ps with ave_unit_size := aus } }
        emptyWarning := true }
    else
      let pr := calculate_probabilities df profit_to_prob_func
      let build_idx := select_buildings d.ps false wrc wrc custom_selection_func pr.2 pr.1
      let feas := drop_built_buildings d.ps d.feasibility build_idx
      let new_df := prepare_new_buildings_wide d.ps pr.2 build_idx
      { result := some new_df
        dev := { feasibility := feas, ps := { d.ps with ave_unit_size := aus } }
        emptyWarning := false }

/-- `Developer.pick` in long mode (`keep_suboptimal=True`): the feasibility
frame is used as is, the parcel index is materialised as a column before
selection (`reset_index`, a no-op in this representation where `parcel_id` is
always a field and the index is positional), and no built building is dropped
from `self.feasibility`. -/
def pick_long (d : DevL)
    (profit_to_prob_func : Option (List BRow → List ℚ))
    (custom_selection_func : Option (List BRow → List ℚ → ℚ → List Nat))
    (wrcMulti : List BRow → List ℚ → ℚ → List Nat) : PickOutL :=
  if d.feasibility.isEmpty then
    { result := none, dev := d, emptyWarning := true }
  else
    let step := remove_infeasible_buildings d.ps d.feasibility
    let aus := step.2
    let df := calculate_net_units d.ps step.1
    if df.isEmpty then
      { result := none
        dev := { d with ps := { d.ps with ave_unit_size := aus } }
        emptyWarning := true }
    else
      let pr := calculate_probabilities df profit_to_prob_func
      let build_idx := select_buildings d.ps true wrcMulti wrcMulti custom_selection_func pr.2 pr.1
      let new_df := prepare_new_buildings_long d.ps pr.2 build_idx
      { result := some new_df
        dev := { d with ps := { d.ps with ave_unit_size := aus } }
        emptyWarning := false }

/-- A selection primitive that selects nothing (used to instantiate the
sampler parameters in concrete runs on which the sampler is never consulted
or its output irrelevant). -/
def wrcNull : List BRow → List ℚ → ℚ → List Nat := fun _ _ _ => []

/-- A selection primitive returning a fixed index list. -/
def wrcConst (l : List Nat) : List BRow → List ℚ → ℚ → List Nat :=
  fun _ _ _ => l

/-- Concrete wide feasibility frame with one form and two parcels, used by the
concrete instantiations below. -/
def exFrameW : WideFrame :=
  { formOrder := ["res"]
    rows := [
      { parcel_id := 0
        attrs := fun _ =>
          { max_profit := 10, max_profit_far := 1
            residential_sqft := 1000, non_residential_sqft := 0
            stories := 6/5 } },
      { parcel_id := 1
        attrs := fun _ =>
          { max_profit := 20, max_profit_far := 1
            residential_sqft := 1200, non_residential_sqft := 0
            stories := 2 } } ] }

/-- Concrete constructor parameters: a single form, a large scalar target, and
an `ave_unit_size` below the minimum (so the clamp is observable). -/
def exParams : Params :=
  { forms := FormsSpec.single "res"
    target_units := 1000
    parcel_size := fun _ => 1000
    ave_unit_size := fun _ => 100
    current_units := fun _ => 0
    year := some 2020 }

/-- Concrete wide-mode developer. -/
def exDevW : DevW := { feasibility := exFrameW, ps := exParams }

/-- Concrete long-mode feasibility rows: two proposals on the same parcel. -/
def exRowL0 : BRow :=
  { parcel_id := 0, form := some "res", max_profit := 10, max_profit_far := 1
    residential_sqft := 1000, non_residential_sqft := 0, stories := 6/5 }

/-- Second proposal on the same parcel (long mode). -/
def exRowL1 : BRow :=
  { parcel_id := 0, form := some "off", max_profit := 12, max_profit_far := 1
    residential_sqft := 900, non_residential_sqft := 0, stories := 1 }

/-- Concrete long-mode developer. -/
def exDevL : DevL := { feasibility := [exRowL0, exRowL1], ps := exParams }

/-- Wide-mode developer with an empty feasibility frame. -/
def emptyDevW : DevW :=
  { feasibility := { formOrder := ["res"], rows := [] }, ps := exParams }

/-- Long-mode developer with an empty feasibility frame. -/
def emptyDevL : DevL := { feasibility := [], ps := exParams }

/-- Core row fields that the selection and post-processing steps never
invent: used to carry properties of pool rows to built rows. -/
def SameCore (a b : BRow) : Prop :=
  a.parcel_id = b.parcel_id ∧ a.form = b.form ∧ a.max_profit_far = b.max_profit_far ∧
  a.parcel_size = b.parcel_size ∧ a.net_units = b.net_units ∧ a.stories = b.stories ∧
  a.year_built = b.year_built

theorem sameCore_refl (a : BRow) : SameCore a a :=
  ⟨rfl, rfl, rfl, rfl, rfl, rfl, rfl⟩

theorem postProcess_fields (ps : Params) (c : BRow) :
    (postProcess ps c).net_units = c.net_units ∧
    (postProcess ps c).max_profit_far = c.max_profit_far ∧
    (postProcess ps c).parcel_size = c.parcel_size ∧
    (postProcess ps c).parcel_id = c.parcel_id ∧
    (postProcess ps c).stories = ((⌈c.stories⌉ : ℤ) : ℚ) ∧
    (postProcess ps c).year_built = (match ps.year with
                                     | Option.some y => some y
                                     | Option.none => c.year_built) ∧
    (postProcess ps c).form = (match ps.forms with
                               | FormsSpec.formList _ => c.form
                               | FormsSpec.single s => some s
                               | FormsSpec.noForm => none) := by
  unfold postProcess
  rcases ps.year with _ | y <;> rcases hf : ps.forms with _ | s | l <;> simp [hf]

theorem mem_locByParcel {df : List BRow} {ls : List Nat} {r : BRow}
    (h : r ∈ locByParcel df ls) : r ∈ df ∧ r.parcel_id ∈ ls := by
  unfold locByParcel at h
  simp only [List.mem_flatMap, List.mem_filter] at h
  obtain ⟨l, hl, hr, hpid⟩ := h
  exact ⟨hr, (of_decide_eq_true hpid) ▸ hl⟩

theorem mem_locByPos {df : List BRow} {ls : List Nat} {r : BRow}
    (h : r ∈ locByPos df ls) : r ∈ df := by
  unfold locByPos at h
  simp only [List.mem_filterMap] at h
  obtain ⟨l, _, hr⟩ := h
  exact List.getElem?_mem hr

theorem locByParcel_self (df : List BRow)
    (h : (df.map (fun r => r.parcel_id)).Nodup) :
    locByParcel df (df.map (fun r => r.parcel_id)) = df := by
  induction df with
  | nil => rfl
  | cons a t ih =>
    simp only [List.map_cons, List.nodup_cons, List.mem_map] at h
    obtain ⟨hna, hnd⟩ := h
    have hfa : t.filter (fun r => r.parcel_id = a.parcel_id) = [] := by
      apply List.filter_eq_nil_iff.mpr
      intro x hx
      simp only [decide_eq_true_eq]
      intro heq
      exact hna ⟨x, hx, heq⟩
    unfold locByParcel
    simp only [List.map_cons, List.flatMap_cons]
    have h1 : (a :: t).filter (fun r => r.parcel_id = a.parcel_id) = [a] := by
      simp [List.filter_cons, hfa]
    rw [h1]
    have h2 : (t.map (fun r => r.parcel_id)).flatMap
        (fun l => (a :: t).filter (fun r => r.parcel_id = l)) =
        (t.map (fun r => r.parcel_id)).flatMap
        (fun l => t.filter (fun r => r.parcel_id = l)) := by
      apply List.flatMap_congr
      intro l hl
      simp only [List.mem_map] at hl
      obtain ⟨x, hx, hxl⟩ := hl
      have : ¬ a.parcel_id = l := fun hc => hna ⟨x, hx, by rw [hxl, ← hc]⟩
      simp [List.filter_cons, this]
    rw [h2]
    have := ih hnd
    unfold locByParcel at this
    simp [this]

theorem locByPos_range (df : List BRow) :
    locByPos df (List.range df.length) = df := by
  induction df with
  | nil => rfl
  | cons a t ih =>
    unfold locByPos at ih ⊢
    rw [List.length_cons, List.range_succ_eq_map]
    simp only [List.filterMap_cons, List.getElem?_cons_zero, List.filterMap_map]
    have hc : ((fun l => (a :: t)[l]?) ∘ Nat.succ) = (fun l => t[l]?) := by
      funext l
      simp
    rw [hc, ih]

theorem mem_remove_infeasible {ps : Params} {df : List BRow} {c : BRow}
    (h : c ∈ (remove_infeasible_buildings ps df).1) :
    0 < c.max_profit_far ∧ c.parcel_size < ps.max_parcel_size ∧
    ∃ w ∈ df, c.parcel_id = w.parcel_id ∧ c.form = w.form ∧ c.stories = w.stories ∧
      c.year_built = w.year_built ∧ c.max_profit = w.max_profit := by
  unfold remove_infeasible_buildings at h
  split at h
  · next he =>
    rw [List.isEmpty_iff.mp he] at h
    cases h
  · simp only [List.mem_map, List.mem_filter, decide_eq_true_eq] at h
    obtain ⟨r3, ⟨⟨r2, ⟨hr2df, hfar⟩, hgr⟩, hsize⟩, hc⟩ := h
    subst hc
    subst hgr
    exact ⟨hfar, hsize, r2, hr2df, rfl, rfl, rfl, rfl, rfl⟩

theorem mem_calculate_net_units {ps : Params} {df : List BRow} {c : BRow}
    (h : c ∈ calculate_net_units ps df) :
    0 < c.net_units ∧
    ∃ b ∈ df, c.parcel_id = b.parcel_id ∧ c.form = b.form ∧ c.stories = b.stories ∧
      c.year_built = b.year_built ∧ c.max_profit_far = b.max_profit_far ∧
      c.parcel_size = b.parcel_size ∧ c.max_profit = b.max_profit := by
  unfold calculate_net_units at h
  split at h
  · next he =>
    rw [List.isEmpty_iff.mp he] at h
    cases h
  · simp only [List.mem_filter, List.mem_map, decide_eq_true_eq] at h
    obtain ⟨⟨b, hb, hc⟩, hnet⟩ := h
    subst hc
    exact ⟨hnet, b, hb, rfl, rfl, rfl, rfl, rfl, rfl, rfl⟩

theorem mem_candidate_props {ps : Params} {df : List BRow} {c : BRow}
    (h : c ∈ calculate_net_units ps (remove_infeasible_buildings ps df).1) :
    (0 < c.net_units ∧ 0 < c.max_profit_far ∧ c.parcel_size < ps.max_parcel_size) ∧
    ∃ w ∈ df, c.parcel_id = w.parcel_id ∧ c.form = w.form ∧ c.stories = w.stories ∧
      c.year_built = w.year_built := by
  obtain ⟨hnet, b, hb, h1, h2, h3, h4, h5, h6, h7⟩ := mem_calculate_net_units h
  obtain ⟨hfar, hsize, w, hw, g1, g2, g3, g4, g5⟩ := mem_remove_infeasible hb
  refine ⟨⟨hnet, ?_, ?_⟩, w, hw, ?_, ?_, ?_, ?_⟩
  · rw [h5]; exact hfar
  · rw [h6]; exact hsize
  · rw [h1, g1]
  · rw [h2, g2]
  · rw [h3, g3]
  · rw [h4, g4]

theorem mem_final_candidates {df : List BRow} {p2p : Option (List BRow → List ℚ)}
    {c : BRow} (h : c ∈ (calculate_probabilities df p2p).2) :
    ∃ b ∈ df, SameCore c b := by
  unfold calculate_probabilities at h
  match p2p with
  | Option.some f =>
    exact ⟨c, h, sameCore_refl c⟩
  | Option.none =>
    simp only [List.mem_map] at h
    obtain ⟨b, hb, hc⟩ := h
    subst hc
    exact ⟨b, hb, rfl, rfl, rfl, rfl, rfl, rfl, rfl⟩

theorem mem_get_dataframe {d : DevW} {w : BRow} (h : w ∈ get_dataframe_of_buildings d) :
    w.year_built = none ∧
    w.parcel_id ∈ d.feasibility.rows.map (fun x => x.parcel_id) := by
  unfold get_dataframe_of_buildings at h
  split at h
  · unfold keep_form_with_max_profit at h
    simp only [List.mem_filterMap, Option.map_eq_some'] at h
    obtain ⟨r, hr, f, _, hred⟩ := h
    subst hred
    exact ⟨rfl, List.mem_map.mpr ⟨r, hr, rfl⟩⟩
  · unfold keep_form_with_max_profit at h
    simp only [List.mem_filterMap, Option.map_eq_some'] at h
    obtain ⟨r, hr, f, _, hred⟩ := h
    subst hred
    exact ⟨rfl, List.mem_map.mpr ⟨r, hr, rfl⟩⟩
  · simp only [List.mem_map] at h
    obtain ⟨r, hr, hc⟩ := h
    subst hc
    exact ⟨rfl, List.mem_map.mpr ⟨r, hr, rfl⟩⟩

theorem result_rows_wide {d : DevW} {p2p : Option (List BRow → List ℚ)}
    {csel : Option (List BRow → List ℚ → ℚ → List Nat)}
    {wrc : List BRow → List ℚ → ℚ → List Nat} {res : List BRow} {r : BRow}
    (hres : (pick_wide d p2p csel wrc).result = some res) (hr : r ∈ res) :
    ∃ c ∈ final_candidates_wide d p2p, r = postProcess d.ps c := by
  simp only [pick_wide] at hres
  split at hres
  · simp at hres
  · split at hres
    · simp at hres
    · simp only [Option.some.injEq] at hres
      subst hres
      simp only [prepare_new_buildings_wide, List.mem_map] at hr
      obtain ⟨c, hc, hpc⟩ := hr
      refine ⟨c, ?_, hpc.symm⟩
      simp only [final_candidates_wide, candidate_pool_wide]
      exact (mem_locByParcel hc).1

theorem result_rows_long {d : DevL} {p2p : Option (List BRow → List ℚ)}
    {csel : Option (List BRow → List ℚ → ℚ → List Nat)}
    {wrcMulti : List BRow → List ℚ → ℚ → List Nat} {res : List BRow} {r : BRow}
    (hres : (pick_long d p2p csel wrcMulti).result = some res) (hr : r ∈ res) :
    ∃ c ∈ final_candidates_long d p2p, r = postProcess d.ps c := by
  simp only [pick_long] at hres
  split at hres
  · simp at hres
  · split at hres
    · simp at hres
    · simp only [Option.some.injEq] at hres
      subst hres
      simp only [prepare_new_buildings_long, List.mem_map] at hr
      obtain ⟨c, hc, hpc⟩ := hr
      refine ⟨c, ?_, hpc.symm⟩
      simp only [final_candidates_long, candidate_pool_long]
      exact mem_locByPos hc

set_option maxRecDepth 8000

/-- C1: for every feasibility input and every configuration (including any
injected probability or selection function), every row of the frame returned
by `Developer.pick` — when it returns one — satisfies `net_units > 0`,
`max_profit_far > 0` and `parcel_size < max_parcel_size`, where
`max_parcel_size` is the configured limit; this holds in wide and in long
mode. -/
theorem C1_built_rows_feasible :
    (∀ (d : DevW) (p2p : Option (List BRow → List ℚ))
       (csel : Option (List BRow → List ℚ → ℚ → List Nat))
       (wrc : List BRow → List ℚ → ℚ → List Nat) (res : List BRow) (r : BRow),
       (pick_wide d p2p csel wrc).result = some res → r ∈ res →
       0 < r.net_units ∧ 0 < r.max_profit_far ∧
         r.parcel_size < d.ps.max_parcel_size) ∧
    (∀ (d : DevL) (p2p : Option (List BRow → List ℚ))
       (csel : Option (List BRow → List ℚ → ℚ → List Nat))
       (wrcMulti : List BRow → List ℚ → ℚ → List Nat) (res : List BRow) (r : BRow),
       (pick_long d p2p csel wrcMulti).result = some res → r ∈ res →
       0 < r.net_units ∧ 0 < r.max_profit_far ∧
         r.parcel_size < d.ps.max_parcel_size) := by
  constructor
  · intro d p2p csel wrc res r hres hr
    obtain ⟨c, hc, hrc⟩ := result_rows_wide hres hr
    obtain ⟨b, hb, hcore⟩ := mem_final_candidates hc
    obtain ⟨⟨hnet, hfar, hsize⟩, -⟩ := mem_candidate_props hb
    obtain ⟨-, -, hfar2, hsize2, hnet2, -, -⟩ := hcore
    obtain ⟨f1, f2, f3, -⟩ := postProcess_fields d.ps c
    subst hrc
    refine ⟨?_, ?_, ?_⟩
    · rw [f1, hnet2]; exact hnet
    · rw [f2, hfar2]; exact hfar
    · rw [f3, hsize2]; exact hsize
  · intro d p2p csel wrcMulti res r hres hr
    obtain ⟨c, hc, hrc⟩ := result_rows_long hres hr
    obtain ⟨b, hb, hcore⟩ := mem_final_candidates hc
    obtain ⟨⟨hnet, hfar, hsize⟩, -⟩ := mem_candidate_props hb
    obtain ⟨-, -, hfar2, hsize2, hnet2, -, -⟩ := hcore
    obtain ⟨f1, f2, f3, -⟩ := postProcess_fields d.ps c
    subst hrc
    refine ⟨?_, ?_, ?_⟩
    · rw [f1, hnet2]; exact hnet
    · rw [f2, hfar2]; exact hfar
    · rw [f3, hsize2]; exact hsize

/-- The frame returned by `pick` on the concrete wide-mode developer. -/
def exResW : List BRow := (pick_wide exDevW none none wrcNull).result.getD []

/-- First built row of the concrete wide-mode run. -/
def exBuiltRowW : BRow := exResW.headI

/-- C1 witness: the theorem applied to the concrete wide-mode run. -/
theorem C1_built_rows_feasible_witness :
    0 < exBuiltRowW.net_units ∧ 0 < exBuiltRowW.max_profit_far ∧
      exBuiltRowW.parcel_size < exDevW.ps.max_parcel_size :=
  C1_built_rows_feasible.1 exDevW none none wrcNull exResW exBuiltRowW
    (by with_unfolding_all decide) (by with_unfolding_all decide)

theorem get_dataframe_nil (d : DevW) (h : d.feasibility.rows = []) :
    get_dataframe_of_buildings d = [] := by
  unfold get_dataframe_of_buildings keep_form_with_max_profit
  split <;> simp [h]

/-- C8: when the feasibility table is empty, or becomes empty after form
reduction, infeasibility filtering and net-unit filtering, `Developer.pick`
returns the distinguished nothing-to-build signal `none` (distinct from a
populated-but-empty frame `some []`), prints the warning, and — being a total
function — raises no exception; in wide and in long mode. -/
theorem C8_empty_pool_returns_none :
    (∀ (d : DevW) (p2p : Option (List BRow → List ℚ))
       (csel : Option (List BRow → List ℚ → ℚ → List Nat))
       (wrc : List BRow → List ℚ → ℚ → List Nat),
       (d.feasibility.rows = [] ∨ candidate_pool_wide d = []) →
       (pick_wide d p2p csel wrc).result = none ∧
       (pick_wide d p2p csel wrc).emptyWarning = true) ∧
    (∀ (d : DevL) (p2p : Option (List BRow → List ℚ))
       (csel : Option (List BRow → List ℚ → ℚ → List Nat))
       (wrcMulti : List BRow → List ℚ → ℚ → List Nat),
       (d.feasibility = [] ∨ candidate_pool_long d = []) →
       (pick_long d p2p csel wrcMulti).result = none ∧
       (pick_long d p2p csel wrcMulti).emptyWarning = true) := by
  constructor
  · intro d p2p csel wrc h
    by_cases he : d.feasibility.rows.isEmpty
    · constructor <;> simp [pick_wide, he]
    · have hpool : candidate_pool_wide d = [] := by
        rcases h with h | h
        · exact absurd (by simp [h]) he
        · exact h
      unfold candidate_pool_wide at hpool
      constructor <;> simp [pick_wide, he, hpool]
  · intro d p2p csel wrcMulti h
    by_cases he : d.feasibility.isEmpty
    · constructor <;> simp [pick_long, he]
    · have hpool : candidate_pool_long d = [] := by
        rcases h with h | h
        · exact absurd (by simp [h]) he
        · exact h
      unfold candidate_pool_long at hpool
      constructor <;> simp [pick_long, he, hpool]

/-- C8 witness: the theorem applied to the concrete empty-feasibility
developers of both modes. -/
theorem C8_empty_pool_returns_none_witness :
    ((pick_wide emptyDevW none none wrcNull).result = none ∧
      (pick_wide emptyDevW none none wrcNull).emptyWarning = true) ∧
    ((pick_long emptyDevL none none wrcNull).result = none ∧
      (pick_long emptyDevL none none wrcNull).emptyWarning = true) :=
  ⟨C8_empty_pool_returns_none.1 emptyDevW none none wrcNull
     (Or.inl (by with_unfolding_all rfl)),
   C8_empty_pool_returns_none.2 emptyDevL none none wrcNull
     (Or.inl (by with_unfolding_all rfl))⟩

/-- C10: in long mode (`keep_suboptimal=True`) a call to `Developer.pick`
leaves the `self.feasibility` attribute unchanged even when
`drop_after_build` is set: the drop-built-buildings step runs only in
non-long mode. -/
theorem C10_long_feasibility_unchanged :
    ∀ (d : DevL) (p2p : Option (List BRow → List ℚ))
      (csel : Option (List BRow → List ℚ → ℚ → List Nat))
      (wrcMulti : List BRow → List ℚ → ℚ → List Nat),
      d.ps.drop_after_build = true →
      (pick_long d p2p csel wrcMulti).dev.feasibility = d.feasibility := by
  intro d p2p csel wrcMulti _
  simp only [pick_long]
  split
  · rfl
  · split <;> rfl

/-- C10 witness: the theorem applied to the concrete long-mode developer,
whose configuration has `drop_after_build = true`. -/
theorem C10_long_feasibility_unchanged_witness :
    (pick_long exDevL none none wrcNull).dev.feasibility = exDevL.feasibility :=
  C10_long_feasibility_unchanged exDevL none none wrcNull
    (by with_unfolding_all rfl)

/-- C5: for every candidate pool, when the scalar target is non-positive and
no custom selection function is supplied, the selection step selects nothing
(and, the embedding being total, raises no exception); this holds in both
modes (`keep_suboptimal` arbitrary). -/
theorem C5_nonpositive_target_selects_nothing :
    ∀ (ps : Params) (keep_suboptimal : Bool)
      (wrc wrcMulti : List BRow → List ℚ → ℚ → List Nat)
      (df : List BRow) (p : List ℚ),
      ps.target_units ≤ 0 →
      select_buildings ps keep_suboptimal wrc wrcMulti none df p = [] := by
  intro ps ks wrc wrcMulti df p ht
  simp [select_buildings, ht]

/-- Concrete configuration with target 0. -/
def zeroTargetParams : Params := { exParams with target_units := 0 }

/-- C5 witness: the theorem applied to a concrete non-empty candidate pool
with target 0. -/
theorem C5_nonpositive_target_selects_nothing_witness :
    select_buildings zeroTargetParams false wrcNull wrcNull none [exRowL0] [1] = [] :=
  C5_nonpositive_target_selects_nothing zeroTargetParams false wrcNull wrcNull
    [exRowL0] [1] (by with_unfolding_all decide)

/-- C9 counterexample: on a developer whose feasibility table is empty,
`pick` returns before the clamp is executed, so the externally supplied
`ave_unit_size` value 100 — strictly below the configured minimum 400 —
is still 100 (not 400) after the call, refuting the claim that every call
to `pick` clamps the shared series. -/
theorem C9_clamp_counterexample :
    emptyDevW.ps.ave_unit_size 0 < emptyDevW.ps.min_unit_size ∧
    (pick_wide emptyDevW none none wrcNull).dev.ps.ave_unit_size 0 = 100 ∧
    (100 : ℚ) ≠ emptyDevW.ps.min_unit_size := by
  with_unfolding_all decide

/-- C9 amended: every call to `pick` in which the building table reaching the
infeasibility-filtering step is non-empty (wide mode: the reduced frame is
non-empty; long mode: the feasibility table is non-empty) mutates the
externally supplied `ave_unit_size` series in place, setting every value
below the configured `min_unit_size` to `min_unit_size`, so callers sharing
the series observe the clamped values afterwards — including calls that go on
to return the nothing-to-build signal. -/
theorem C9_clamp_amended :
    (∀ (d : DevW) (p2p : Option (List BRow → List ℚ))
       (csel : Option (List BRow → List ℚ → ℚ → List Nat))
       (wrc : List BRow → List ℚ → ℚ → List Nat),
       get_dataframe_of_buildings d ≠ [] →
       ∀ i, (pick_wide d p2p csel wrc).dev.ps.ave_unit_size i =
         (if d.ps.ave_unit_size i < d.ps.min_unit_size then d.ps.min_unit_size
          else d.ps.ave_unit_size i)) ∧
    (∀ (d : DevL) (p2p : Option (List BRow → List ℚ))
       (csel : Option (List BRow → List ℚ → ℚ → List Nat))
       (wrcMulti : List BRow → List ℚ → ℚ → List Nat),
       d.feasibility ≠ [] →
       ∀ i, (pick_long d p2p csel wrcMulti).dev.ps.ave_unit_size i =
         (if d.ps.ave_unit_size i < d.ps.min_unit_size then d.ps.min_unit_size
          else d.ps.ave_unit_size i)) := by
  constructor
  · intro d p2p csel wrc hget i
    have hrows : d.feasibility.rows.isEmpty = false := by
      rcases hr : d.feasibility.rows with _ | _
      · exact absurd (get_dataframe_nil d hr) hget
      · rfl
    have hstep : (remove_infeasible_buildings d.ps (get_dataframe_of_buildings d)).2 =
        clampedAveUnitSize d.ps := by
      unfold remove_infeasible_buildings
      rw [if_neg (by simp [hget])]
    simp only [pick_wide, hrows, Bool.false_eq_true, if_false]
    split
    · simp [hstep, clampedAveUnitSize]
    · simp [hstep, clampedAveUnitSize]
  · intro d p2p csel wrcMulti hfeas i
    have hrows : d.feasibility.isEmpty = false := by
      rcases hr : d.feasibility with _ | _
      · exact absurd hr hfeas
      · rfl
    have hstep : (remove_infeasible_buildings d.ps d.feasibility).2 =
        clampedAveUnitSize d.ps := by
      unfold remove_infeasible_buildings
      rw [if_neg (by simp [hfeas])]
    simp only [pick_long, hrows, Bool.false_eq_true, if_false]
    split
    · simp [hstep, clampedAveUnitSize]
    · simp [hstep, clampedAveUnitSize]

/-- C9 amended witness: the theorem applied to the concrete wide-mode
developer, whose `ave_unit_size` value 100 is below the minimum 400 and is
clamped by the call. -/
theorem C9_clamp_amended_witness :
    (pick_wide exDevW none none wrcNull).dev.ps.ave_unit_size 0 =
      (if exDevW.ps.ave_unit_size 0 < exDevW.ps.min_unit_size
       then exDevW.ps.min_unit_size else exDevW.ps.ave_unit_size 0) :=
  C9_clamp_amended.1 exDevW none none wrcNull
    (by with_unfolding_all decide) 0

theorem pool_year_built_none {d : DevW} {b : BRow}
    (hb : b ∈ candidate_pool_wide d) : b.year_built = none := by
  obtain ⟨-, w, hw, -, -, -, hyb⟩ := mem_candidate_props hb
  rw [hyb]
  exact (mem_get_dataframe hw).1

/-- C7: in the output of `Developer.pick` (wide mode), every built row is the
post-processing of a candidate row `c` of the pool handed to selection, and:
`year_built` equals the configured year exactly when one was configured
(`year_built = ps.year`, an `Option`); the `form` column is overwritten from
the configuration only when `forms` is not a list — in particular a single
configured form is written to every row — while list mode retains the
per-row `form` produced by reduction; `stories` is rounded up to the nearest
whole story; and the parcel identifier is carried as an output column. -/
theorem C7_postprocessing :
    ∀ (d : DevW) (p2p : Option (List BRow → List ℚ))
      (csel : Option (List BRow → List ℚ → ℚ → List Nat))
      (wrc : List BRow → List ℚ → ℚ → List Nat) (res : List BRow) (r : BRow),
      (pick_wide d p2p csel wrc).result = some res → r ∈ res →
      ∃ c ∈ final_candidates_wide d p2p,
        r = postProcess d.ps c ∧
        r.year_built = d.ps.year ∧
        r.stories = ((⌈c.stories⌉ : ℤ) : ℚ) ∧
        r.parcel_id = c.parcel_id ∧
        (∀ s, d.ps.forms = FormsSpec.single s → r.form = some s) ∧
        (∀ l, d.ps.forms = FormsSpec.formList l → r.form = c.form) := by
  intro d p2p csel wrc res r hres hr
  obtain ⟨c, hc, hrc⟩ := result_rows_wide hres hr
  obtain ⟨b, hb, hcore⟩ := mem_final_candidates hc
  obtain ⟨-, -, -, -, -, -, hyb⟩ := hcore
  have hybnone : c.year_built = none := by
    rw [hyb]
    exact pool_year_built_none hb
  obtain ⟨-, -, -, f4, f5, f6, f7⟩ := postProcess_fields d.ps c
  subst hrc
  refine ⟨c, hc, rfl, ?_, f5, f4, ?_, ?_⟩
  · rw [f6]
    cases hy : d.ps.year
    · simpa [hy] using hybnone
    · simp [hy]
  · intro s hs
    rw [f7, hs]
  · intro l hl
    rw [f7, hl]

/-- C7 witness: the theorem applied to the concrete wide-mode run. -/
theorem C7_postprocessing_witness :
    ∃ c ∈ final_candidates_wide exDevW none,
      exBuiltRowW = postProcess exDevW.ps c ∧
      exBuiltRowW.year_built = exDevW.ps.year ∧
      exBuiltRowW.stories = ((⌈c.stories⌉ : ℤ) : ℚ) ∧
      exBuiltRowW.parcel_id = c.parcel_id ∧
      (∀ s, exDevW.ps.forms = FormsSpec.single s → exBuiltRowW.form = some s) ∧
      (∀ l, exDevW.ps.forms = FormsSpec.formList l → exBuiltRowW.form = c.form) :=
  C7_postprocessing exDevW none none wrcNull exResW exBuiltRowW
    (by with_unfolding_all decide) (by with_unfolding_all decide)

theorem pick_wide_main {d : DevW} {p2p : Option (List BRow → List ℚ)}
    {csel : Option (List BRow → List ℚ → ℚ → List Nat)}
    {wrc : List BRow → List ℚ → ℚ → List Nat} {res : List BRow}
    (hres : (pick_wide d p2p csel wrc).result = some res) :
    ∃ bidx : List Nat,
      res = prepare_new_buildings_wide d.ps (final_candidates_wide d p2p) bidx ∧
      (pick_wide d p2p csel wrc).dev.feasibility =
        drop_built_buildings d.ps d.feasibility bidx := by
  by_cases h1 : d.feasibility.rows.isEmpty
  · simp [pick_wide, h1] at hres
  · by_cases h2 : (calculate_net_units d.ps
        (remove_infeasible_buildings d.ps (get_dataframe_of_buildings d)).1).isEmpty
    · simp [pick_wide, h1, h2] at hres
    · rw [Bool.not_eq_true] at h1 h2
      simp only [pick_wide, h1, h2, Bool.false_eq_true, if_false,
        Option.some.injEq] at hres ⊢
      refine ⟨_, ?_, rfl⟩
      rw [← hres]
      rfl

theorem dev_rows_after_drop {d : DevW} {bidx : List Nat} {x : WideRow}
    (hdrop : d.ps.drop_after_build = true)
    (hx : x ∈ (drop_built_buildings d.ps d.feasibility bidx).rows) :
    x.parcel_id ∉ bidx := by
  unfold drop_built_buildings at hx
  rw [if_pos hdrop] at hx
  simp only [List.mem_filter, decide_eq_true_eq] at hx
  exact hx.2

/-- C6: in wide (non-long) mode with `drop_after_build` enabled, every index
selected for building by a call to `pick` is removed from `self.feasibility`
before the call returns, so a second call to `pick` on the same developer can
never select a parcel chosen by the first call. -/
theorem C6_drop_after_build :
    ∀ (d : DevW) (p2p p2p' : Option (List BRow → List ℚ))
      (csel csel' : Option (List BRow → List ℚ → ℚ → List Nat))
      (wrc wrc' : List BRow → List ℚ → ℚ → List Nat)
      (res1 res2 : List BRow) (r1 r2 : BRow),
      d.ps.drop_after_build = true →
      (pick_wide d p2p csel wrc).result = some res1 →
      (pick_wide ((pick_wide d p2p csel wrc).dev) p2p' csel' wrc').result = some res2 →
      r1 ∈ res1 → r2 ∈ res2 →
      (r1.parcel_id ∉
        ((pick_wide d p2p csel wrc).dev.feasibility.rows.map (fun x => x.parcel_id))) ∧
      r1.parcel_id ≠ r2.parcel_id := by
  intro d p2p p2p' csel csel' wrc wrc' res1 res2 r1 r2 hdrop hres1 hres2 hr1 hr2
  obtain ⟨bidx, hres1eq, hdev⟩ := pick_wide_main hres1
  subst hres1eq
  simp only [prepare_new_buildings_wide, List.mem_map] at hr1
  obtain ⟨c1, hc1, hpc1⟩ := hr1
  obtain ⟨-, -, -, f4, -⟩ := postProcess_fields d.ps c1
  have hr1pid : r1.parcel_id ∈ bidx := by
    rw [← hpc1, f4]
    exact (mem_locByParcel hc1).2
  have part1 : r1.parcel_id ∉
      ((pick_wide d p2p csel wrc).dev.feasibility.rows.map (fun x => x.parcel_id)) := by
    rw [hdev]
    intro hmem
    simp only [List.mem_map] at hmem
    obtain ⟨x, hx, hxeq⟩ := hmem
    exact (dev_rows_after_drop hdrop hx) (hxeq ▸ hr1pid)
  refine ⟨part1, ?_⟩
  obtain ⟨c2, hc2, hpc2⟩ := result_rows_wide hres2 hr2
  obtain ⟨b2, hb2, hcore2⟩ := mem_final_candidates hc2
  obtain ⟨-, w2, hw2, hpidb2, -⟩ := mem_candidate_props hb2
  obtain ⟨-, -, -, g4, -⟩ := postProcess_fields ((pick_wide d p2p csel wrc).dev).ps c2
  have hr2mem : r2.parcel_id ∈
      ((pick_wide d p2p csel wrc).dev.feasibility.rows.map (fun x => x.parcel_id)) := by
    rw [hpc2, g4, hcore2.1, hpidb2]
    exact (mem_get_dataframe hw2).2
  intro heq
  exact part1 (heq ▸ hr2mem)

/-- Wide-mode developer with a small (attainable) target, for the two-call
scenario. -/
def twoCallDev : DevW :=
  { feasibility := exFrameW, ps := { exParams with target_units := 1 } }

/-- First call of the two-call scenario: the sampler picks parcel 0. -/
def exPick1 : PickOutW := pick_wide twoCallDev none none (wrcConst [0])

/-- Built set of the first call. -/
def exRes1 : List BRow := exPick1.result.getD []

/-- Second call, on the developer state left by the first call: the sampler
picks parcel 1. -/
def exPick2 : PickOutW := pick_wide exPick1.dev none none (wrcConst [1])

/-- Built set of the second call. -/
def exRes2 : List BRow := exPick2.result.getD []

/-- C6 witness: the theorem applied to the concrete two-call scenario. -/
theorem C6_drop_after_build_witness :
    (exRes1.headI.parcel_id ∉
      (exPick1.dev.feasibility.rows.map (fun x => x.parcel_id))) ∧
    exRes1.headI.parcel_id ≠ exRes2.headI.parcel_id :=
  C6_drop_after_build twoCallDev none none none none (wrcConst [0]) (wrcConst [1])
    exRes1 exRes2 exRes1.headI exRes2.headI
    (by with_unfolding_all rfl)
    (by with_unfolding_all decide)
    (by with_unfolding_all decide)
    (by with_unfolding_all decide)
    (by with_unfolding_all decide)

theorem ids_map_preserving {l : List BRow} {u : BRow → BRow}
    (hu : ∀ r, (u r).parcel_id = r.parcel_id) :
    (l.map u).map (fun r => r.parcel_id) = l.map (fun r => r.parcel_id) := by
  rw [List.map_map]
  exact List.map_congr_left (fun r _ => hu r)

theorem ids_sublist_map_of_sublist {l1 l2 : List BRow} (u : BRow → BRow)
    (hs : List.Sublist l1 l2) (hu : ∀ r, (u r).parcel_id = r.parcel_id) :
    List.Sublist ((l1.map u).map (fun r => r.parcel_id))
      (l2.map (fun r => r.parcel_id)) := by
  have he : (l1.map u).map (fun r => r.parcel_id) = l1.map (fun r => r.parcel_id) := by
    rw [List.map_map]
    exact List.map_congr_left (fun r _ => hu r)
  rw [he]
  exact List.Sublist.map _ hs

theorem ids_single_form (rows : List WideRow) (s : String) :
    (rows.map (fun r => singleFormRow r s)).map (fun r => r.parcel_id) =
      rows.map (fun w => w.parcel_id) := by
  rw [List.map_map]
  rfl

theorem ids_sublist_filterMap (rows : List WideRow) (q : WideRow → Option BRow)
    (hq : ∀ w c, q w = some c → c.parcel_id = w.parcel_id) :
    List.Sublist ((rows.filterMap q).map (fun r => r.parcel_id))
      (rows.map (fun w => w.parcel_id)) := by
  induction rows with
  | nil => simp
  | cons a t ih =>
    cases hqa : q a with
    | none =>
      rw [List.filterMap_cons_none hqa, List.map_cons]
      exact ih.cons _
    | some c =>
      rw [List.filterMap_cons_some hqa, List.map_cons, List.map_cons,
        hq a c hqa]
      exact ih.cons₂ _

theorem ids_sublist_get_dataframe (d : DevW) :
    List.Sublist ((get_dataframe_of_buildings d).map (fun r => r.parcel_id))
      (d.feasibility.rows.map (fun w => w.parcel_id)) := by
  unfold get_dataframe_of_buildings keep_form_with_max_profit
  split
  · exact ids_sublist_filterMap _ _ (fun w c hc => by
      obtain ⟨f, -, hred⟩ := Option.map_eq_some'.mp hc
      rw [← hred]
      rfl)
  · exact ids_sublist_filterMap _ _ (fun w c hc => by
      obtain ⟨f, -, hred⟩ := Option.map_eq_some'.mp hc
      rw [← hred]
      rfl)
  · rw [ids_single_form]

theorem ids_sublist_remove_infeasible (ps : Params) (df : List BRow) :
    List.Sublist (((remove_infeasible_buildings ps df).1).map (fun r => r.parcel_id))
      (df.map (fun r => r.parcel_id)) := by
  unfold remove_infeasible_buildings
  split
  · exact List.Sublist.refl _
  · exact List.Sublist.trans
      (ids_sublist_map_of_sublist _ (List.filter_sublist _) (fun r => rfl))
      (ids_sublist_map_of_sublist _ (List.filter_sublist _) (fun r => rfl))

theorem ids_sublist_calculate_net_units (ps : Params) (df : List BRow) :
    List.Sublist ((calculate_net_units ps df).map (fun r => r.parcel_id))
      (df.map (fun r => r.parcel_id)) := by
  unfold calculate_net_units
  split
  · exact List.Sublist.refl _
  · exact List.Sublist.trans (List.Sublist.map _ (List.filter_sublist _))
      (ids_sublist_map_of_sublist _ (List.Sublist.refl _) (fun r => rfl))

theorem ids_final_eq (df : List BRow) (p2p : Option (List BRow → List ℚ)) :
    ((calculate_probabilities df p2p).2).map (fun r => r.parcel_id) =
      df.map (fun r => r.parcel_id) := by
  unfold calculate_probabilities
  cases p2p with
  | none => exact ids_map_preserving (fun r => rfl)
  | some f => rfl

theorem ids_final_wide_sublist (d : DevW) (p2p : Option (List BRow → List ℚ)) :
    List.Sublist ((final_candidates_wide d p2p).map (fun r => r.parcel_id))
      (d.feasibility.rows.map (fun w => w.parcel_id)) := by
  unfold final_candidates_wide candidate_pool_wide
  rw [ids_final_eq]
  exact ((ids_sublist_calculate_net_units _ _).trans
    (ids_sublist_remove_infeasible _ _)).trans (ids_sublist_get_dataframe d)

theorem isEmpty_false_of_ne {α : Type} {l : List α} (h : l ≠ []) :
    l.isEmpty = false := by
  cases l
  · exact absurd rfl h
  · rfl

theorem final_nil (df : List BRow) (p2p : Option (List BRow → List ℚ))
    (h : df = []) : (calculate_probabilities df p2p).2 = [] := by
  subst h
  unfold calculate_probabilities
  cases p2p <;> rfl

theorem pool_nil_wide (d : DevW) (h : get_dataframe_of_buildings d = []) :
    candidate_pool_wide d = [] := by
  unfold candidate_pool_wide
  rw [h]
  rfl

theorem pool_nil_long (d : DevL) (h : d.feasibility = []) :
    candidate_pool_long d = [] := by
  unfold candidate_pool_long
  rw [h]
  rfl

theorem pick_result_eq_wide (d : DevW) (p2p : Option (List BRow → List ℚ))
    (csel : Option (List BRow → List ℚ → ℚ → List Nat))
    (wrc : List BRow → List ℚ → ℚ → List Nat)
    (h1 : d.feasibility.rows.isEmpty = false)
    (h2 : (candidate_pool_wide d).isEmpty = false) :
    (pick_wide d p2p csel wrc).result =
      some (prepare_new_buildings_wide d.ps (final_candidates_wide d p2p)
        (select_buildings d.ps false wrc wrc csel (final_candidates_wide d p2p)
          (calculate_probabilities (candidate_pool_wide d) p2p).1)) := by
  unfold candidate_pool_wide at h2
  simp only [pick_wide, h1, h2, Bool.false_eq_true, if_false]
  rfl

theorem pick_result_eq_long (d : DevL) (p2p : Option (List BRow → List ℚ))
    (csel : Option (List BRow → List ℚ → ℚ → List Nat))
    (wrcMulti : List BRow → List ℚ → ℚ → List Nat)
    (h1 : d.feasibility.isEmpty = false)
    (h2 : (candidate_pool_long d).isEmpty = false) :
    (pick_long d p2p csel wrcMulti).result =
      some (prepare_new_buildings_long d.ps (final_candidates_long d p2p)
        (select_buildings d.ps true wrcMulti wrcMulti csel (final_candidates_long d p2p)
          (calculate_probabilities (candidate_pool_long d) p2p).1)) := by
  unfold candidate_pool_long at h2
  simp only [pick_long, h1, h2, Bool.false_eq_true, if_false]
  rfl

theorem select_insufficient (ps : Params)
    (wrc wrcMulti : List BRow → List ℚ → ℚ → List Nat)
    (df : List BRow) (p : List ℚ)
    (ht : 0 < ps.target_units)
    (hsum : (df.map (fun r => r.net_units)).sum < ps.target_units) :
    select_buildings ps false wrc wrcMulti none df p =
      df.map (fun r => r.parcel_id) := by
  simp [select_buildings, not_le.mpr ht, hsum]

theorem select_keep_suboptimal (ps : Params)
    (wrc wrcMulti : List BRow → List ℚ → ℚ → List Nat)
    (df : List BRow) (p : List ℚ) (ht : 0 < ps.target_units) :
    select_buildings ps true wrc wrcMulti none df p =
      wrcMulti df p ps.target_units := by
  simp [select_buildings, not_le.mpr ht]

theorem multiparcel_insufficient (g : Nat → Nat) (df : List BRow) (p : List ℚ)
    (target : ℚ) (hsum : (df.map (fun r => r.net_units)).sum < target) :
    weighted_random_choice_multiparcel g df p target = List.range df.length := by
  unfold weighted_random_choice_multiparcel
  rw [if_pos hsum]

/-- C2: for every candidate pool whose total `net_units` falls strictly below
a positive scalar target, with no custom selection function supplied, the
selection step selects the entire candidate pool — the built set equals all
candidates (post-processed), rather than failing.  In wide mode this is the
explicit fallback branch of `_select_buildings`; in long mode the selection is
delegated to `proposal_select.weighted_random_choice_multiparcel` (not among
these sources), modelled from the spec's selection algorithm, whose
insufficient-supply branch selects the whole pool. -/
theorem C2_insufficient_supply_builds_all :
    (∀ (d : DevW) (p2p : Option (List BRow → List ℚ))
       (wrc : List BRow → List ℚ → ℚ → List Nat),
       (d.feasibility.rows.map (fun w => w.parcel_id)).Nodup →
       final_candidates_wide d p2p ≠ [] →
       0 < d.ps.target_units →
       ((final_candidates_wide d p2p).map (fun r => r.net_units)).sum <
         d.ps.target_units →
       (pick_wide d p2p none wrc).result =
         some ((final_candidates_wide d p2p).map (postProcess d.ps))) ∧
    (∀ (d : DevL) (p2p : Option (List BRow → List ℚ)) (g : Nat → Nat),
       final_candidates_long d p2p ≠ [] →
       0 < d.ps.target_units →
       ((final_candidates_long d p2p).map (fun r => r.net_units)).sum <
         d.ps.target_units →
       (pick_long d p2p none (weighted_random_choice_multiparcel g)).result =
         some ((final_candidates_long d p2p).map (postProcess d.ps))) := by
  constructor
  · intro d p2p wrc hnd hfin ht hsum
    have hpool : candidate_pool_wide d ≠ [] := fun h =>
      hfin (by unfold final_candidates_wide; exact final_nil _ _ h)
    have hget : get_dataframe_of_buildings d ≠ [] := fun h =>
      hpool (pool_nil_wide d h)
    have hrows : d.feasibility.rows ≠ [] := fun h => hget (get_dataframe_nil d h)
    rw [pick_result_eq_wide d p2p none wrc (isEmpty_false_of_ne hrows)
      (isEmpty_false_of_ne hpool)]
    rw [select_insufficient d.ps wrc wrc _ _ ht hsum]
    unfold prepare_new_buildings_wide
    rw [locByParcel_self _ ((ids_final_wide_sublist d p2p).nodup hnd)]
  · intro d p2p g hfin ht hsum
    have hpool : candidate_pool_long d ≠ [] := fun h =>
      hfin (by unfold final_candidates_long; exact final_nil _ _ h)
    have hfeas : d.feasibility ≠ [] := fun h => hpool (pool_nil_long d h)
    rw [pick_result_eq_long d p2p none (weighted_random_choice_multiparcel g)
      (isEmpty_false_of_ne hfeas) (isEmpty_false_of_ne hpool)]
    rw [select_keep_suboptimal d.ps _ _ _ _ ht]
    rw [multiparcel_insufficient g _ _ _ hsum]
    unfold prepare_new_buildings_long
    rw [locByPos_range]

/-- C2 witness: the theorem applied to the concrete wide-mode developer
(target 1000, only 5 net units available) and the concrete long-mode
developer (target 1000, only 4 net units available). -/
theorem C2_insufficient_supply_builds_all_witness :
    ((pick_wide exDevW none none wrcNull).result =
      some ((final_candidates_wide exDevW none).map (postProcess exDevW.ps))) ∧
    ((pick_long exDevL none none
        (weighted_random_choice_multiparcel (fun _ => 0))).result =
      some ((final_candidates_long exDevL none).map (postProcess exDevL.ps))) :=
  ⟨C2_insufficient_supply_builds_all.1 exDevW none wrcNull
     (by with_unfolding_all decide) (by with_unfolding_all decide)
     (by with_unfolding_all decide) (by with_unfolding_all decide),
   C2_insufficient_supply_builds_all.2 exDevL none (fun _ => 0)
     (by with_unfolding_all decide) (by with_unfolding_all decide)
     (by with_unfolding_all decide)⟩

/-- Candidate row with zero `max_profit` on a unit-size parcel: the default
probability rule then divides by a zero pool total. -/
def zeroProfitRow : BRow :=
  { parcel_id := 0, max_profit := 0, max_profit_far := 1,
    residential_sqft := 0, non_residential_sqft := 0, stories := 1,
    parcel_size := 1 }

/-- C3 counterexample: a non-empty candidate pool with positive
`parcel_size` on which the default probability vector does not sum to 1:
with every `max_profit` zero the profit-density total is zero, and the
division yields a vector summing to 0 (in pandas, NaN), not 1. -/
theorem C3_default_probabilities_counterexample :
    [zeroProfitRow].map (fun r => r.parcel_size) = [1] ∧
    (calculate_probabilities [zeroProfitRow] none).1.sum ≠ 1 := by
  with_unfolding_all decide

theorem sum_div_ratio (l : List BRow) (s : ℚ) :
    (l.map (fun r => r.max_profit_per_size / s)).sum =
      (l.map (fun r => r.max_profit_per_size)).sum / s := by
  induction l with
  | nil => simp
  | cons a t ih => simp [ih, add_div]

/-- C3 amended: for every candidate pool with positive `parcel_size` values
whose profit-density total `Σ max_profit[j]/parcel_size[j]` is non-zero
(in particular any non-empty pool of strictly profitable candidates), the
default probability assigned to candidate `i` equals
`(max_profit[i]/parcel_size[i]) / Σ_j (max_profit[j]/parcel_size[j])` and the
probability vector sums exactly to 1. -/
theorem C3_default_probabilities_amended :
    ∀ (df : List BRow),
      (∀ r ∈ df, 0 < r.parcel_size) →
      (df.map (fun r => r.max_profit / r.parcel_size)).sum ≠ 0 →
      (calculate_probabilities df none).1 =
        df.map (fun r => (r.max_profit / r.parcel_size) /
          (df.map (fun x => x.max_profit / x.parcel_size)).sum) ∧
      (calculate_probabilities df none).1.sum = 1 := by
  intro df hpos hS
  have key : ∀ (l : List BRow),
      (l.map (fun r =>
        { r with max_profit_per_size := r.max_profit / r.parcel_size })).map
        (fun r => r.max_profit_per_size) =
        l.map (fun r => r.max_profit / r.parcel_size) := by
    intro l
    rw [List.map_map]
    rfl
  constructor
  · simp only [calculate_probabilities, key, List.map_map]
    rfl
  · simp only [calculate_probabilities, sum_div_ratio, key]
    exact div_self hS

/-- Concrete strictly profitable pool for the C3 witness. -/
def posProfitRow : BRow :=
  { parcel_id := 0, max_profit := 10, max_profit_far := 1,
    residential_sqft := 0, non_residential_sqft := 0, stories := 1,
    parcel_size := 1000 }

/-- C3 amended witness: the theorem applied to a concrete one-row pool with
positive parcel size and non-zero profit density. -/
theorem C3_default_probabilities_amended_witness :
    (calculate_probabilities [posProfitRow] none).1 =
      [posProfitRow].map (fun r => (r.max_profit / r.parcel_size) /
        ([posProfitRow].map (fun x => x.max_profit / x.parcel_size)).sum) ∧
    (calculate_probabilities [posProfitRow] none).1.sum = 1 :=
  C3_default_probabilities_amended [posProfitRow]
    (by with_unfolding_all decide) (by with_unfolding_all decide)

theorem find_decomp {α : Type} (p : α → Bool) (l : List α) (a : α)
    (h : l.find? p = some a) :
    ∃ l1 l2, l = l1 ++ a :: l2 ∧ ∀ x ∈ l1, p x = false := by
  induction l with
  | nil => simp at h
  | cons b t ih =>
    by_cases hb : p b = true
    · rw [List.find?_cons_of_pos _ hb] at h
      obtain rfl : b = a := by injection h
      exact ⟨[], t, rfl, by simp⟩
    · rw [List.find?_cons_of_neg _ hb] at h
      obtain ⟨l1, l2, heq, hall⟩ := ih h
      refine ⟨b :: l1, l2, by rw [heq]; rfl, ?_⟩
      intro x hx
      rcases List.mem_cons.mp hx with rfl | hx
      · exact Bool.eq_false_iff.mpr hb
      · exact hall x hx

theorem exists_first_max (r : WideRow) (fs : List String) (h : fs ≠ []) :
    ∃ f ∈ fs, ∀ g ∈ fs, (r.attrs g).max_profit ≤ (r.attrs f).max_profit := by
  induction fs with
  | nil => exact absurd rfl h
  | cons a t ih =>
    rcases ht : t with _ | ⟨b, t2⟩
    · refine ⟨a, by simp, ?_⟩
      intro g hg
      rcases List.mem_cons.mp hg with rfl | hg
      · exact le_refl _
      · simp at hg
    · obtain ⟨f, hf, hmax⟩ := ih (by rw [ht]; simp)
      rcases le_total (r.attrs f).max_profit (r.attrs a).max_profit with hle | hle
      · refine ⟨a, by simp, ?_⟩
        intro g hg
        rcases List.mem_cons.mp hg with rfl | hg
        · exact le_refl _
        · exact (hmax g (ht ▸ hg)).trans hle
      · refine ⟨f, by simp [ht ▸ hf], ?_⟩
        intro g hg
        rcases List.mem_cons.mp hg with rfl | hg
        · exact hle
        · exact hmax g (ht ▸ hg)

theorem idxmaxForm_isSome (r : WideRow) (fs : List String) (h : fs ≠ []) :
    ∃ f, idxmaxForm r fs = some f := by
  obtain ⟨f, hf, hmax⟩ := exists_first_max r fs h
  have hsome : (fs.find? (fun f =>
      decide (∀ g ∈ fs, (r.attrs g).max_profit ≤ (r.attrs f).max_profit))).isSome := by
    rw [List.find?_isSome]
    exact ⟨f, hf, decide_eq_true hmax⟩
  exact Option.isSome_iff_exists.mp hsome

theorem filterMap_filter_unique {rows : List WideRow} {q : WideRow → Option BRow}
    {r : WideRow} {b : BRow}
    (hq : ∀ w c, q w = some c → c.parcel_id = w.parcel_id)
    (hnd : (rows.map (fun w => w.parcel_id)).Nodup)
    (hr : r ∈ rows) (hqr : q r = some b) :
    (rows.filterMap q).filter (fun c => c.parcel_id = r.parcel_id) = [b] := by
  induction rows with
  | nil => cases hr
  | cons a t ih =>
    simp only [List.map_cons, List.nodup_cons, List.mem_map, not_exists] at hnd
    obtain ⟨hna, hnd2⟩ := hnd
    rcases List.mem_cons.mp hr with rfl | hrt
    · rw [List.filterMap_cons_some hqr, List.filter_cons,
        if_pos (decide_eq_true (hq _ _ hqr))]
      have htail : (t.filterMap q).filter
          (fun c => c.parcel_id = r.parcel_id) = [] := by
        apply List.filter_eq_nil_iff.mpr
        intro c hc
        simp only [decide_eq_true_eq]
        intro hceq
        obtain ⟨w, hw, hqw⟩ := List.mem_filterMap.mp hc
        exact hna w ⟨hw, by rw [← hq w c hqw, hceq]⟩
      rw [htail]
    · cases hqa : q a with
      | none =>
        rw [List.filterMap_cons_none hqa]
        exact ih hnd2 hrt
      | some c =>
        rw [List.filterMap_cons_some hqa, List.filter_cons, if_neg ?hcond]
        case hcond =>
          simp only [decide_eq_true_eq]
          intro hceq
          exact hna r ⟨hrt, by rw [← hceq, hq a c hqa]⟩
        exact ih hnd2 hrt

theorem keep_form_kept_rows (F : WideFrame) (forms : Option (List String))
    (r : WideRow) (f : String)
    (hnd : (F.rows.map (fun w => w.parcel_id)).Nodup)
    (hr : r ∈ F.rows)
    (hidx : idxmaxForm r (allowedForms F forms) = some f) :
    (keep_form_with_max_profit F forms).filter
      (fun c => c.parcel_id = r.parcel_id) = [reducedRow r f] := by
  unfold keep_form_with_max_profit
  exact filterMap_filter_unique
    (fun w c hc => by
      obtain ⟨x, -, hx⟩ := Option.map_eq_some'.mp hc
      rw [← hx]
      rfl)
    hnd hr (by rw [hidx]; rfl)

/-- Parcel on which the forms `office` and `residential` tie at
`max_profit` 50. -/
def tieRow : WideRow :=
  { parcel_id := 1
    attrs := fun _ =>
      { max_profit := 50, max_profit_far := 1, residential_sqft := 0,
        non_residential_sqft := 0, stories := 1 } }

/-- Wide frame whose stored column-level (construction) order is
`["office", "residential"]`. -/
def tieFrame : WideFrame :=
  { formOrder := ["office", "residential"], rows := [tieRow] }

/-- C4 counterexample: with the allowed-forms list
`["residential", "office"]` — whose column ordering after `f = f[forms]`
starts with `residential` — and a profit tie at 50, the reducer keeps the
`office` row: `idxmax` runs over the columns in the frame's stored
column-level order `["office", "residential"]`, which column selection does
not reorder, so the tie goes to `office`, not to the first-encountered form
of the allowed forms' ordering. -/
theorem C4_reduce_to_best_counterexample :
    (tieRow.attrs "residential").max_profit = (tieRow.attrs "office").max_profit ∧
    (keep_form_with_max_profit tieFrame (some ["residential", "office"])).map
      (fun c => c.form) = [some "office"] ∧
    some "office" ≠ some "residential" := by
  with_unfolding_all decide

/-- C4 amended: in reduce-to-best mode (`forms` `None` or a list), for every
parcel of a frame with unique parcel ids and a non-empty allowed-form axis,
the reducer keeps exactly one row: the one of the form with maximal
`max_profit` among the allowed forms, with ties broken in favour of the first
such form in the frame's stored column-level (construction) order restricted
to the allowed forms — not the order of the `forms` list — and the kept row
carries the winning form as an added `form` attribute. -/
theorem C4_reduce_to_best_amended :
    ∀ (F : WideFrame) (forms : Option (List String)) (r : WideRow),
      (F.rows.map (fun w => w.parcel_id)).Nodup →
      r ∈ F.rows →
      allowedForms F forms ≠ [] →
      ∃ f ∈ allowedForms F forms,
        (keep_form_with_max_profit F forms).filter
          (fun c => c.parcel_id = r.parcel_id) = [reducedRow r f] ∧
        (reducedRow r f).form = some f ∧
        (∀ g ∈ allowedForms F forms,
          (r.attrs g).max_profit ≤ (r.attrs f).max_profit) ∧
        ∃ l1 l2, allowedForms F forms = l1 ++ f :: l2 ∧
          ∀ g ∈ l1, (r.attrs g).max_profit < (r.attrs f).max_profit := by
  intro F forms r hnd hr hne
  obtain ⟨f, hfind⟩ := idxmaxForm_isSome r _ hne
  have hfind2 := hfind
  unfold idxmaxForm at hfind2
  have hfmem := List.mem_of_find?_eq_some hfind2
  have hpf := List.find?_some hfind2
  have hfmax : ∀ g ∈ allowedForms F forms,
      (r.attrs g).max_profit ≤ (r.attrs f).max_profit := of_decide_eq_true hpf
  obtain ⟨l1, l2, hdecomp, hfail⟩ := find_decomp _ _ _ hfind2
  refine ⟨f, hfmem, keep_form_kept_rows F forms r f hnd hr hfind, rfl, hfmax,
    l1, l2, hdecomp, ?_⟩
  intro g hg
  have hnotall : ¬(∀ h ∈ allowedForms F forms,
      (r.attrs h).max_profit ≤ (r.attrs g).max_profit) :=
    of_decide_eq_false (hfail g hg)
  push_neg at hnotall
  obtain ⟨h, hh, hlt⟩ := hnotall
  exact hlt.trans_le (hfmax h hh)

/-- C4 amended witness: the theorem applied to the concrete tie scenario. -/
theorem C4_reduce_to_best_amended_witness :
    ∃ f ∈ allowedForms tieFrame (some ["residential", "office"]),
      (keep_form_with_max_profit tieFrame (some ["residential", "office"])).filter
        (fun c => c.parcel_id = tieRow.parcel_id) = [reducedRow tieRow f] ∧
      (reducedRow tieRow f).form = some f ∧
      (∀ g ∈ allowedForms tieFrame (some ["residential", "office"]),
        (tieRow.attrs g).max_profit ≤ (tieRow.attrs f).max_profit) ∧
      ∃ l1 l2, allowedForms tieFrame (some ["residential", "office"]) =
          l1 ++ f :: l2 ∧
        ∀ g ∈ l1, (tieRow.attrs g).max_profit < (tieRow.attrs f).max_profit :=
  C4_reduce_to_best_amended tieFrame (some ["residential", "office"]) tieRow
    (by with_unfolding_all decide) (List.mem_singleton.mpr rfl)
    (by with_unfolding_all decide)
